import Mathlib

/-!
Verification of `moon-landr` (`src/game.rs`): a shallow embedding of the
game's core systems — flight control and fuel/mass, terrain chunk streaming
and landing-pad placement, ground-contact classification, crash detection,
and the debounced win timer — together with theorems settling the spec's
claims about them.

Rust `f32` quantities are modelled as `ℚ`, machine integers as `ℕ`/`ℤ`
(the code never exercises `i32`/`u32` overflow on these paths), and
durations as natural numbers of milliseconds.
-/

namespace MoonLandr

/-! ### Constants (from `src/game.rs`) -/

def THRUST : ℚ := 12000
def ROTATION_THRUST : ℚ := 3
def FUEL_CONSUMPTION_RATE : ℕ := 1
def SAFE_LANDING_IMPULSE_MAGNITUDE : ℚ := 15000
def FUEL_MASS_FACTOR : ℚ := 1
def DRY_LANDER_MASS : ℚ := 800
def MAX_FUEL : ℕ := 1000

def CHUNK_BUFFER_OUTSIDE_VIEWPORT_COUNT : ℤ := 3
def CHUNK_WIDTH : ℚ := 400
def CHUNK_GRANULARITY : ℕ := 2
def CAMERA_VIEWPORT_WIDTH : ℚ := 1600
def LAND_PAD_WIDTH : ℕ := 24

/-- Win-timer duration (`WIN_TIMER_DURATION = 3.0` seconds) in milliseconds. -/
def WIN_TIMER_DURATION_MS : ℕ := 3000

/-! ### Flight dynamics: `control_system` and `fuel_weight_system`

`PlayerState` is the Rust component of the same name; the player record
carries the fields these two systems read and write.  Forces are reported
as the thrust vector applied this tick (`none` when no thrust force was
applied), mirroring `Forces::apply_force`. -/

inductive PlayerState where
  | Idle
  | Firing
  | Crashed
  deriving DecidableEq, Repr

structure ControlInput where
  leftHeld : Bool
  rightHeld : Bool
  spaceJustPressed : Bool
  spaceHeld : Bool
  spaceJustReleased : Bool
  deriving Repr

structure FlightPlayer where
  state : PlayerState
  fuel : ℕ
  mass : ℚ
  deriving Repr

/-- The player as spawned in `setup_level`: `PlayerState::Idle`,
`Fuel(MAX_FUEL)`, `Mass(DRY_LANDER_MASS + MAX_FUEL * FUEL_MASS_FACTOR)`. -/
def initialFlightPlayer : FlightPlayer :=
  { state := PlayerState.Idle
    fuel := MAX_FUEL
    mass := DRY_LANDER_MASS + (MAX_FUEL : ℚ) * FUEL_MASS_FACTOR }

/-- The `if player.3.0 > 0 { ... }` block of `control_system`: flight-state
update on a just-pressed fire input, thrust force and fuel decrement
(`saturating_sub`) while the fire input is held.  Returns the updated
player and whether a thrust force was applied. -/
def firingStep (inp : ControlInput) (p : FlightPlayer) : FlightPlayer × Bool :=
  if p.fuel > 0 then
    let st := if inp.spaceJustPressed then PlayerState.Firing else p.state
    if inp.spaceHeld then
      ({ p with state := st, fuel := p.fuel - FUEL_CONSUMPTION_RATE }, true)
    else
      ({ p with state := st }, false)
  else (p, false)

/-- `control_system`'s fuel / flight-state / thrust logic.  Mirrors the
source: the firing block runs only when `fuel > 0`, and afterwards the
state is forced to `Idle` when space was just released while `Firing`, or
when the (post-decrement) fuel is `0`. -/
def control_system (inp : ControlInput) (p : FlightPlayer) : FlightPlayer × Bool :=
  let r := firingStep inp p
  let p2 :=
    if (inp.spaceJustReleased && decide (r.1.state = PlayerState.Firing))
        || decide (r.1.fuel = 0) then
      { r.1 with state := PlayerState.Idle }
    else r.1
  (p2, r.2)

/-- `fuel_weight_system`: recompute `mass = DRY_LANDER_MASS + fuel *
FUEL_MASS_FACTOR`.  The system runs under a `Changed<Fuel>` filter, so the
per-tick composition passes `changed` in. -/
def fuel_weight_system (changed : Bool) (p : FlightPlayer) : FlightPlayer :=
  if changed then
    { p with mass := DRY_LANDER_MASS + (p.fuel : ℚ) * FUEL_MASS_FACTOR }
  else p

/-- One `Update` frame of the fuel/mass systems under a scheduler order
the plugin permits: `fuel_weight_system` is registered outside the
`.chain()`ed system tuple with no ordering constraint relative to
`control_system`, so the scheduler may run it first.  At the point it
runs, the fuel has not changed since its own last run, so its
`Changed<Fuel>` filter does not fire (`changed = false`); `control_system`
then mutates the fuel, and no mass recomputation follows within the
frame. -/
def flightFrameWeightFirst (inp : ControlInput) (p : FlightPlayer) : FlightPlayer :=
  (control_system inp (fuel_weight_system false p)).1

/-- The spec's mass invariant: `mass == dryMass + fuel * fuelMassFactor`. -/
def massInvariant (p : FlightPlayer) : Prop :=
  p.mass = DRY_LANDER_MASS + (p.fuel : ℚ) * FUEL_MASS_FACTOR

instance (p : FlightPlayer) : Decidable (massInvariant p) := by
  unfold massInvariant; infer_instance

/-! ### Crash detection: `player_crash_observer`

Entities are modelled as naturals; the `Ground` tag as a membership list;
the contact pairs involving the player as the list of their
`total_normal_impulse_magnitude` values. -/

structure CollisionEvent where
  collider1 : ℕ
  collider2 : ℕ
  deriving DecidableEq, Repr

/-- `player_crash_observer`: given a collision-start event, the player
entity, the set of `Ground`-tagged entities, and the total normal impulse
magnitudes of all current contact pairs involving the player, decide
whether a transition to `GamePhase::Lose` is requested. -/
def player_crash_observer (ev : CollisionEvent) (player : ℕ) (ground : List ℕ)
    (playerContactImpulses : List ℚ) : Bool :=
  if ev.collider1 = player ∨ ev.collider2 = player then
    let other := if ev.collider1 = player then ev.collider2 else ev.collider1
    if ground.contains other then
      decide (playerContactImpulses.sum > SAFE_LANDING_IMPULSE_MAGNITUDE)
    else false
  else false

/-! ### Landing-pad RNG seed: `create_terrain_chunk`, lines 431–432

`let seed = x_origin; let mut rng = StdRng::seed_from_u64(seed as u64);`
Chunk origins are produced by an `as f32` cast of an `i32`, so they are
integral; the Rust `f32 as u64` cast truncates toward zero and saturates:
negative inputs map to `0`, inputs above `u64::MAX` to `u64::MAX`. -/

def f32_as_u64 (x : ℤ) : ℕ :=
  if x < 0 then 0 else min x.toNat (2 ^ 64 - 1)

/-- The per-chunk RNG seed derived from the chunk's `x_origin`. -/
def chunkSeed (x_origin : ℤ) : ℕ := f32_as_u64 x_origin

/-! ### Terrain streaming: `terrain_chunk_system`

Chunk origins are whole multiples of `CHUNK_WIDTH`; the system computes
them in `i32`, so they are modelled as `ℤ`. -/

/-- The Rust half-open range `a..b` over integers, as a list. -/
def intRange (a b : ℤ) : List ℤ :=
  (List.range (b - a).toNat).map (fun n => a + (n : ℤ))

/-- `((player_x / CHUNK_WIDTH).floor() * CHUNK_WIDTH) as i32`. -/
def currentChunkOrigin (playerX : ℚ) : ℤ :=
  ⌊playerX / CHUNK_WIDTH⌋ * 400

/-- `(CAMERA_VIEWPORT_WIDTH / CHUNK_WIDTH).ceil() as i32 + 2`. -/
def CHUNKS_IN_CAMERA_VIEWPORT : ℤ :=
  ⌈CAMERA_VIEWPORT_WIDTH / CHUNK_WIDTH⌉ + 2

/-- The needed chunk-origin window computed each tick:
`(-BUF - CIV/2)..(CIV/2 + BUF)` (a Rust range, exclusive on the right),
mapped to `current_chunk_x_origin + i * CHUNK_WIDTH`. -/
def neededChunkOrigins (currentOrigin : ℤ) : List ℤ :=
  (intRange (-CHUNK_BUFFER_OUTSIDE_VIEWPORT_COUNT - CHUNKS_IN_CAMERA_VIEWPORT / 2)
      (CHUNKS_IN_CAMERA_VIEWPORT / 2 + CHUNK_BUFFER_OUTSIDE_VIEWPORT_COUNT)).map
    (fun i => currentOrigin + i * 400)

/-- `terrain_chunk_system`, as the transformation it performs on the live
chunk-origin set: existing chunks outside the needed window are despawned,
and every needed origin with no existing chunk is created.  (The despawn
commands are deferred, so the `chunks_to_add` filter in the source runs
against the full pre-despawn `existing_chunks` query — modelled by
filtering against the whole `existing` list.) -/
def terrain_chunk_system (playerX : ℚ) (existing : List ℤ) : List ℤ :=
  let needed := neededChunkOrigins (currentChunkOrigin playerX)
  let survivors := existing.filter (fun c => needed.contains c)
  let added := needed.filter (fun c => !existing.contains c)
  survivors ++ added

/-! ### Landing-pad placement in `create_terrain_chunk`

`LAND_PAD_WINDOW = (LAND_PAD_WIDTH / CHUNK_GRANULARITY) = 12` samples.
The pad roll (`rng.random_bool(0.7)`) is passed in as a boolean. -/

def LAND_PAD_WINDOW : ℕ := LAND_PAD_WIDTH / CHUNK_GRANULARITY

/-- Whether the pad window starting at sample `i` qualifies:
`(ground_heights[i] - ground_heights[i + LAND_PAD_WINDOW]).abs() <= 4.0`. -/
def padWindowQualifies (hs : List ℚ) (i : ℕ) : Bool :=
  decide (|hs.getD i 0 - hs.getD (i + LAND_PAD_WINDOW) 0| ≤ 4)

/-- The scan loop `for i in 1..(ground_heights.len() - LAND_PAD_WINDOW)`:
the first qualifying window start, if any.  Note the loop begins at `1`. -/
def padScan (hs : List ℚ) : Option ℕ :=
  (List.range' 1 (hs.length - LAND_PAD_WINDOW - 1)).find? (padWindowQualifies hs)

/-- The pad-placement portion of `create_terrain_chunk`: given the sampled
heights and the pad roll, return the (possibly flattened) heights and the
recorded pad `(pad_x, pad_height)`, if one was placed.  The in-place write
loop `for x in x_0..=x_1 { ground_heights[x] = pad_height }` is rendered
functionally: the sample at index `j` becomes `pad_height` exactly when
`x_0 ≤ j ≤ x_1`. -/
def placeLandPad (hs : List ℚ) (padRoll : Bool) : List ℚ × Option (ℚ × ℚ) :=
  if padRoll then
    match padScan hs with
    | some i =>
        let x0 := i
        let x1 := i + LAND_PAD_WINDOW
        let padHeight := (hs.getD x0 0 + hs.getD x1 0) / 2
        let hs' := (List.range hs.length).map
          (fun j => if x0 ≤ j ∧ j ≤ x1 then padHeight else hs.getD j 0)
        let padX := ((x0 : ℚ) + (x1 : ℚ)) * (CHUNK_GRANULARITY : ℚ) / 2
        (hs', some (padX, padHeight))
    | none => (hs, none)
  else (hs, none)

/-- Modelled from the spec: "flatten all samples in that window to their
average height" — the average of all `LAND_PAD_WINDOW + 1` samples of the
window starting at `i`, used to compare the spec's words against the
source's endpoint-average. -/
def specWindowAverage (hs : List ℚ) (i : ℕ) : ℚ :=
  (((List.range (LAND_PAD_WINDOW + 1)).map (fun k => hs.getD (i + k) 0)).sum) /
    ((LAND_PAD_WINDOW : ℚ) + 1)

/-! ### Ground detection: `ground_detection_system`

`grounded_query` matches every entity holding a `Grounded` component (the
player); `ground_query` matches `Ground`-tagged entities.  The grounded
flags are a function `ℕ → Bool` over entities. -/

/-- Processing of one `CollisionStart` event by `ground_detection_system`. -/
def processCollisionStart (tracked ground : List ℕ) (g : ℕ → Bool)
    (ev : CollisionEvent) : ℕ → Bool :=
  let a := ev.collider1
  let b := ev.collider2
  if tracked.contains a then
    if ground.contains b then (fun e => if e = a then true else g e) else g
  else if tracked.contains b then
    if ground.contains a then (fun e => if e = b then true else g e) else g
  else g

/-- Processing of one `CollisionEnd` event by `ground_detection_system`. -/
def processCollisionEnd (tracked ground : List ℕ) (g : ℕ → Bool)
    (ev : CollisionEvent) : ℕ → Bool :=
  let a := ev.collider1
  let b := ev.collider2
  if tracked.contains a then
    if ground.contains b then (fun e => if e = a then false else g e) else g
  else if tracked.contains b then
    if ground.contains a then (fun e => if e = b then false else g e) else g
  else g

/-- `ground_detection_system`: drain all `CollisionStart` events, then all
`CollisionEnd` events, updating the grounded flags. -/
def ground_detection_system (tracked ground : List ℕ)
    (starts ends : List CollisionEvent) (g : ℕ → Bool) : ℕ → Bool :=
  ends.foldl (processCollisionEnd tracked ground)
    (starts.foldl (processCollisionStart tracked ground) g)

/-! ### Win timer: `start_win_timer_system`, `reset_win_timer_system`,
`tick_win_timer_system`

The four landing conditions are per-tick observations of the player
(`Grounded`, `LinearVelocity.length() < 5.0`, `AngularVelocity.abs() <
0.1`, `|tilt| < PI / 2`); the reset system tests their exact boolean
complements (`>=` vs `<`).  The timer models Bevy's `Timer` in `Once`
mode: `tick` does not advance a paused timer, clamps `elapsed` at the
duration, and `just_finished` holds exactly on the tick that crosses the
duration; `reset` zeroes `elapsed`. -/

structure PlayerObs where
  grounded : Bool
  linSpeedBelow : Bool
  angSpeedBelow : Bool
  uprightTiltBelow : Bool
  deriving DecidableEq, Repr

/-- The conjunction tested by `start_win_timer_system`. -/
def startConditions (o : PlayerObs) : Bool :=
  o.grounded && o.linSpeedBelow && o.angSpeedBelow && o.uprightTiltBelow

/-- The disjunction tested by `reset_win_timer_system` (each disjunct is
the boolean complement of the corresponding start condition). -/
def resetConditions (o : PlayerObs) : Bool :=
  !o.grounded || !o.linSpeedBelow || !o.angSpeedBelow || !o.uprightTiltBelow

structure WinTimer where
  paused : Bool
  elapsedMs : ℕ
  deriving DecidableEq, Repr

/-- `Timer::from_seconds(WIN_TIMER_DURATION, TimerMode::Once)`: elapsed
zero and not paused. -/
def initWinTimer : WinTimer := ⟨false, 0⟩

/-- `start_win_timer_system`: if the timer is paused and all four landing
conditions hold, reset it and unpause it. -/
def start_win_timer_system (o : PlayerObs) (t : WinTimer) : WinTimer :=
  if t.paused && startConditions o then ⟨false, 0⟩ else t

/-- `reset_win_timer_system`: if the timer is running and any landing
condition is violated, pause it (elapsed time kept). -/
def reset_win_timer_system (o : PlayerObs) (t : WinTimer) : WinTimer :=
  if !t.paused && resetConditions o then ⟨true, t.elapsedMs⟩ else t

/-- `tick_win_timer_system`: advance the timer by this tick's delta and
report whether it just finished (which requests `GamePhase::Win`). -/
def tick_win_timer_system (deltaMs : ℕ) (t : WinTimer) : WinTimer × Bool :=
  if t.paused then (t, false)
  else
    (⟨t.paused, min (t.elapsedMs + deltaMs) WIN_TIMER_DURATION_MS⟩,
     decide (t.elapsedMs < WIN_TIMER_DURATION_MS) &&
       decide (WIN_TIMER_DURATION_MS ≤ t.elapsedMs + deltaMs))

/-- One tick's input to the win-timer pipeline: the player observation and
the tick duration. -/
structure WinTick where
  obs : PlayerObs
  deltaMs : ℕ
  deriving DecidableEq, Repr

/-- One tick of the win-timer pipeline, in system-chain order: start,
reset, tick.  Returns the new timer and whether Win fired. -/
def winTimerStep (tk : WinTick) (t : WinTimer) : WinTimer × Bool :=
  tick_win_timer_system tk.deltaMs
    (reset_win_timer_system tk.obs (start_win_timer_system tk.obs t))

/-- Run the win-timer pipeline over a sequence of ticks, reporting whether
Win ever fired. -/
def runWinTimer : List WinTick → WinTimer → WinTimer × Bool
  | [], t => (t, false)
  | tk :: tks, t =>
    let s := winTimerStep tk t
    let r := runWinTimer tks s.1
    (r.1, s.2 || r.2)

/-- Accumulated tick durations of a span of ticks. -/
def spanDurationMs (tks : List WinTick) : ℕ :=
  (tks.map WinTick.deltaMs).sum

/-! ## Supporting lemmas -/

lemma list_contains_iff {α : Type} [DecidableEq α] (l : List α) (a : α) :
    l.contains a = true ↔ a ∈ l := by
  unfold List.contains
  exact List.elem_iff

lemma firingStep_mass (inp : ControlInput) (p : FlightPlayer) :
    (firingStep inp p).1.mass = p.mass := by
  unfold firingStep
  dsimp only
  split_ifs <;> rfl

lemma control_system_mass (inp : ControlInput) (p : FlightPlayer) :
    (control_system inp p).1.mass = p.mass := by
  unfold control_system
  dsimp only
  split_ifs <;> simpa using firingStep_mass inp p

/-- `control_system` only changes the fuel through the firing block. -/
lemma control_system_fuel (inp : ControlInput) (p : FlightPlayer) :
    (control_system inp p).1.fuel = (firingStep inp p).1.fuel := by
  unfold control_system
  dsimp only
  split_ifs <;> rfl

/-- Characterization of a successful `List.find?` over `List.range'`:
the hit is in range, satisfies the predicate, and nothing before it in the
range does. -/
lemma find?_range'_spec {p : ℕ → Bool} {s n i : ℕ}
    (h : (List.range' s n).find? p = some i) :
    s ≤ i ∧ i < s + n ∧ p i = true ∧ ∀ j, s ≤ j → j < i → p j = false := by
  induction n generalizing s with
  | zero => simp at h
  | succ n ih =>
    rw [List.range'_succ, List.find?_cons] at h
    cases hps : p s
    · rw [hps] at h
      obtain ⟨h1, h2, h3, h4⟩ := ih h
      refine ⟨by omega, by omega, h3, fun j hj hji => ?_⟩
      rcases Nat.eq_or_lt_of_le hj with hj' | hj'
      · rw [← hj']; exact hps
      · exact h4 j hj' hji
    · rw [hps] at h
      simp only [Option.some.injEq] at h
      subst h
      exact ⟨Nat.le_refl s, by omega, hps, fun j hj hji => absurd hji (by omega)⟩

lemma rangeMap_getD (n : ℕ) (f : ℕ → ℚ) (j : ℕ) (hj : j < n) :
    ((List.range n).map f).getD j 0 = f j := by
  rw [List.getD_eq_getElem?_getD, List.getElem?_map, List.getElem?_range hj]
  rfl

lemma CHUNKS_IN_CAMERA_VIEWPORT_eq : CHUNKS_IN_CAMERA_VIEWPORT = 6 := by
  unfold CHUNKS_IN_CAMERA_VIEWPORT CAMERA_VIEWPORT_WIDTH CHUNK_WIDTH
  norm_num

/-- The needed window, evaluated: twelve consecutive chunk origins, six
strictly left of the current chunk's and five strictly right of it. -/
lemma neededChunkOrigins_eq (c : ℤ) :
    neededChunkOrigins c =
      [c - 2400, c - 2000, c - 1600, c - 1200, c - 800, c - 400, c,
       c + 400, c + 800, c + 1200, c + 1600, c + 2000] := by
  unfold neededChunkOrigins
  rw [CHUNKS_IN_CAMERA_VIEWPORT_eq]
  rw [show intRange (-CHUNK_BUFFER_OUTSIDE_VIEWPORT_COUNT - 6 / 2)
      (6 / 2 + CHUNK_BUFFER_OUTSIDE_VIEWPORT_COUNT) =
      [-6, -5, -4, -3, -2, -1, 0, 1, 2, 3, 4, 5] from by decide]
  simp only [List.map_cons, List.map_nil, List.cons.injEq, and_true]
  omega

/-! ## Claim theorems -/

/-- **C2.** When a collision-start event between the player and a
terrain-tagged body is processed by `player_crash_observer`, a transition
to `Lose` is requested if and only if the sum of the total normal impulse
magnitudes over all current contact pairs involving the player strictly
exceeds the safe-landing threshold (so a sum equal to or below the
threshold does not trigger `Lose`). -/
theorem crash_lose_iff_impulse_sum_exceeds (ev : CollisionEvent) (player : ℕ)
    (ground : List ℕ) (impulses : List ℚ)
    (hplayer : ev.collider1 = player ∨ ev.collider2 = player)
    (hground : ground.contains
      (if ev.collider1 = player then ev.collider2 else ev.collider1) = true) :
    player_crash_observer ev player ground impulses = true ↔
      SAFE_LANDING_IMPULSE_MAGNITUDE < impulses.sum := by
  unfold player_crash_observer
  rw [if_pos hplayer]
  dsimp only
  rw [hground]
  simp

/-- Witness for C2: an event between player `1` and terrain body `2` with
a single contact impulse of `15001 > 15000` requests `Lose`. -/
theorem crash_lose_iff_impulse_sum_exceeds_witness :
    player_crash_observer ⟨1, 2⟩ 1 [2] [15001] = true :=
  (crash_lose_iff_impulse_sum_exceeds ⟨1, 2⟩ 1 [2] [15001] (Or.inl rfl)
    (by decide)).mpr (by norm_num [SAFE_LANDING_IMPULSE_MAGNITUDE])

/-- **C3 (code bug).** The claim's invariant point is not guaranteed by
the program: the plugin registers `fuel_weight_system` with no ordering
constraint relative to `control_system`, and under the permitted
weight-first order a fuel-burning frame ends with the invariant
`mass = DRY_LANDER_MASS + fuel * FUEL_MASS_FACTOR` violated — the player
spawns satisfying it, the frame burns fuel (`1000 → 999`), and the mass
stays at its stale value `1800 ≠ 800 + 999` through the next physics
integration step (the fixed-update schedule runs before the next
`Update`). -/
theorem mass_invariant_violated_under_permitted_order :
    massInvariant initialFlightPlayer ∧
      (flightFrameWeightFirst ⟨false, false, true, true, false⟩
        initialFlightPlayer).fuel = MAX_FUEL - 1 ∧
      ¬ massInvariant (flightFrameWeightFirst ⟨false, false, true, true, false⟩
        initialFlightPlayer) := by
  refine ⟨?_, by decide, ?_⟩
  · unfold massInvariant initialFlightPlayer
    norm_num [DRY_LANDER_MASS, MAX_FUEL, FUEL_MASS_FACTOR]
  · unfold massInvariant flightFrameWeightFirst fuel_weight_system
      control_system firingStep initialFlightPlayer
    norm_num [DRY_LANDER_MASS, MAX_FUEL, FUEL_MASS_FACTOR, FUEL_CONSUMPTION_RATE]

/-- **C5.** On every tick where fuel is `0` at entry, `control_system`
forces the flight state to `Idle` and applies no thrust force, whatever
the fire input; on whichever tick the fuel reaches `0` (the
post-decrement fuel is `0`), the flight state is `Idle` at the end of that
same tick, even if the fire input is still held; and not earlier: while
the fire input is held without release and the fuel has not yet reached
`0`, a `Firing` state stays `Firing`. -/
theorem fuel_zero_forces_idle (inp : ControlInput) (p : FlightPlayer) :
    (p.fuel = 0 →
      (control_system inp p).1.state = PlayerState.Idle ∧
        (control_system inp p).2 = false) ∧
    ((control_system inp p).1.fuel = 0 →
      (control_system inp p).1.state = PlayerState.Idle) ∧
    (p.state = PlayerState.Firing → inp.spaceJustReleased = false →
      (control_system inp p).1.fuel ≠ 0 →
      (control_system inp p).1.state = PlayerState.Firing) := by
  refine ⟨?_, ?_, ?_⟩
  · intro h0
    have hfs : firingStep inp p = (p, false) := by
      unfold firingStep
      rw [if_neg (by omega)]
    unfold control_system
    dsimp only
    rw [hfs]
    dsimp only
    rw [if_pos (by simp [h0])]
    exact ⟨rfl, rfl⟩
  · intro h0
    rw [control_system_fuel] at h0
    unfold control_system
    dsimp only
    rw [if_pos (by simp [h0])]
  · intro hfir hrel hne
    rw [control_system_fuel] at hne
    have hst : (firingStep inp p).1.state = PlayerState.Firing := by
      unfold firingStep
      dsimp only
      split_ifs <;> simp [hfir]
    unfold control_system
    dsimp only
    rw [if_neg (by simp [hrel, hne])]
    exact hst

/-- Witness for C5: with fuel `0` and the fire input held, the state is
forced to `Idle` and no thrust is applied; with fuel `2` and the fire
input held, a `Firing` state stays `Firing`. -/
theorem fuel_zero_forces_idle_witness :
    ((control_system ⟨false, false, false, true, false⟩
        ⟨PlayerState.Firing, 0, DRY_LANDER_MASS⟩).1.state = PlayerState.Idle ∧
      (control_system ⟨false, false, false, true, false⟩
        ⟨PlayerState.Firing, 0, DRY_LANDER_MASS⟩).2 = false) ∧
    (control_system ⟨false, false, false, true, false⟩
        ⟨PlayerState.Firing, 2, DRY_LANDER_MASS + 2⟩).1.state = PlayerState.Firing :=
  ⟨(fuel_zero_forces_idle ⟨false, false, false, true, false⟩
      ⟨PlayerState.Firing, 0, DRY_LANDER_MASS⟩).1 rfl,
    (fuel_zero_forces_idle ⟨false, false, false, true, false⟩
      ⟨PlayerState.Firing, 2, DRY_LANDER_MASS + 2⟩).2.2 rfl rfl (by decide)⟩

/-- **C10.** The landing-pad RNG seed (`x_origin as u64`) saturates to `0`
for every negative chunk origin, so all such chunks get the identical seed
and hence the identical pad-presence draw for any deterministic draw
function, while chunks at distinct non-negative origins (within `u64`
range) get distinct seeds. -/
theorem negative_origin_seed_saturates (draw : ℕ → Bool) (x y : ℤ)
    (hx : x < 0) (hy : y < 0) :
    chunkSeed x = 0 ∧ chunkSeed x = chunkSeed y ∧
      draw (chunkSeed x) = draw (chunkSeed y) ∧
      ∀ a b : ℤ, 0 ≤ a → 0 ≤ b → a < 2 ^ 64 → b < 2 ^ 64 → a ≠ b →
        chunkSeed a ≠ chunkSeed b := by
  have hzero : ∀ z : ℤ, z < 0 → chunkSeed z = 0 := by
    intro z hz
    unfold chunkSeed f32_as_u64
    rw [if_pos hz]
  have hnn : ∀ a : ℤ, 0 ≤ a → a < 2 ^ 64 → chunkSeed a = a.toNat := by
    intro a ha hlt
    unfold chunkSeed f32_as_u64
    rw [if_neg (by omega)]
    refine min_eq_left ?_
    omega
  refine ⟨hzero x hx, ?_, ?_, ?_⟩
  · rw [hzero x hx, hzero y hy]
  · rw [hzero x hx, hzero y hy]
  · intro a b ha hb halt hblt hne
    rw [hnn a ha halt, hnn b hb hblt]
    omega

/-- Witness for C10: origins `-400` and `-800` share seed `0`; origins `0`
and `400` get distinct seeds. -/
theorem negative_origin_seed_saturates_witness :
    chunkSeed (-400) = 0 ∧ chunkSeed (-400) = chunkSeed (-800) ∧
      (fun _ => true) (chunkSeed (-400)) = (fun _ => true) (chunkSeed (-800)) ∧
      chunkSeed 0 ≠ chunkSeed 400 := by
  obtain ⟨h1, h2, h3, h4⟩ :=
    negative_origin_seed_saturates (fun _ => true) (-400) (-800)
      (by decide) (by decide)
  exact ⟨h1, h2, h3, h4 0 400 (by decide) (by decide) (by decide) (by decide)
    (by decide)⟩

/-- **C4.** For every player position and every prior live chunk set, the
chunk-origin set after `terrain_chunk_system` equals exactly the computed
needed window: no chunk outside the needed set survives and no needed
origin lacks a chunk. -/
theorem streamer_live_set_eq_needed (playerX : ℚ) (existing : List ℤ) :
    (terrain_chunk_system playerX existing).toFinset =
      (neededChunkOrigins (currentChunkOrigin playerX)).toFinset := by
  ext c
  simp only [terrain_chunk_system, List.toFinset_append, Finset.mem_union,
    List.mem_toFinset, List.mem_filter, list_contains_iff,
    Bool.not_eq_true']
  constructor
  · rintro (⟨_, hmem⟩ | ⟨hmem, _⟩) <;> exact hmem
  · intro hmem
    by_cases hex : c ∈ existing
    · exact Or.inl ⟨hex, hmem⟩
    · exact Or.inr ⟨hmem, by
        rw [← Bool.not_eq_true, list_contains_iff]
        exact hex⟩

/-- **C6 (counterexample).** The pad scan starts at sample index `1`, so
the window starting at the chunk's first sample is never examined: on a
fully flat 14-sample chunk the selected window starts at `1` even though
the window starting at `0` also satisfies the flatness tolerance — a
qualifying window further left exists, refuting the claim as stated. -/
theorem pad_not_leftmost_window :
    padScan [0, 0, 0, 0, 0, 0, 0, 0, 0, 0, 0, 0, 0, (0 : ℚ)] = some 1 ∧
      padWindowQualifies [0, 0, 0, 0, 0, 0, 0, 0, 0, 0, 0, 0, 0, (0 : ℚ)] 0 = true := by
  constructor
  · simp [padScan, padWindowQualifies, LAND_PAD_WINDOW, LAND_PAD_WIDTH,
      CHUNK_GRANULARITY, List.find?, List.getD]
  · simp [padWindowQualifies, LAND_PAD_WINDOW, LAND_PAD_WIDTH,
      CHUNK_GRANULARITY, List.getD]

/-- **C6 (amended).** For every generated chunk, if a landing pad is
present, the pad's window has endpoint height difference at most the
flatness tolerance, and it is the first qualifying window among those
starting at sample index `1` or later (the window starting at the chunk's
first sample, index `0`, is never examined): no qualifying window with
start index in `[1, i)` exists. -/
theorem pad_first_qualifying_after_first_sample (hs : List ℚ) (i : ℕ)
    (h : padScan hs = some i) :
    |hs.getD i 0 - hs.getD (i + LAND_PAD_WINDOW) 0| ≤ 4 ∧
      1 ≤ i ∧ i + LAND_PAD_WINDOW < hs.length ∧
      ∀ j, 1 ≤ j → j < i → padWindowQualifies hs j = false := by
  unfold padScan at h
  obtain ⟨h1, h2, h3, h4⟩ := find?_range'_spec h
  have hw : LAND_PAD_WINDOW = 12 := rfl
  refine ⟨?_, h1, by rw [hw]; rw [hw] at h2; omega, fun j hj hji => h4 j hj hji⟩
  unfold padWindowQualifies at h3
  exact of_decide_eq_true h3

/-- Witness for C6 (amended): on a flat 14-sample chunk the pad lands on
window `1`, which qualifies, and no window in `[1, 1)` precedes it. -/
theorem pad_first_qualifying_after_first_sample_witness :
    |[0, 0, 0, 0, 0, 0, 0, 0, 0, 0, 0, 0, 0, (0 : ℚ)].getD 1 0 -
        [0, 0, 0, 0, 0, 0, 0, 0, 0, 0, 0, 0, 0, (0 : ℚ)].getD (1 + LAND_PAD_WINDOW) 0| ≤ 4 ∧
      1 ≤ 1 ∧ 1 + LAND_PAD_WINDOW <
        [0, 0, 0, 0, 0, 0, 0, 0, 0, 0, 0, 0, 0, (0 : ℚ)].length ∧
      ∀ j, 1 ≤ j → j < 1 →
        padWindowQualifies [0, 0, 0, 0, 0, 0, 0, 0, 0, 0, 0, 0, 0, (0 : ℚ)] j = false :=
  pad_first_qualifying_after_first_sample _ 1
    (by simp [padScan, padWindowQualifies, LAND_PAD_WINDOW, LAND_PAD_WIDTH,
      CHUNK_GRANULARITY, List.find?, List.getD])

/-- **C7 (counterexample).** The flatten height is the average of the two
endpoint samples, not of all samples in the window: on a chunk that is
flat except for a spike of `100` at sample `6`, the selected window `1`
has endpoint average `0`, so sample `6` is flattened to `0`, while the
average of all thirteen samples of the window is `100 / 13 ≠ 0`. -/
theorem pad_flatten_not_window_average :
    padScan [0, 0, 0, 0, 0, 0, 100, 0, 0, 0, 0, 0, 0, (0 : ℚ)] = some 1 ∧
      (placeLandPad [0, 0, 0, 0, 0, 0, 100, 0, 0, 0, 0, 0, 0, (0 : ℚ)] true).1.getD 6 0 = 0 ∧
      specWindowAverage [0, 0, 0, 0, 0, 0, 100, 0, 0, 0, 0, 0, 0, (0 : ℚ)] 1 = 100 / 13 ∧
      (0 : ℚ) ≠ 100 / 13 := by
  refine ⟨?_, ?_, ?_, by norm_num⟩
  · simp [padScan, padWindowQualifies, LAND_PAD_WINDOW, LAND_PAD_WIDTH,
      CHUNK_GRANULARITY, List.find?, List.getD]
  · simp [placeLandPad, padScan, padWindowQualifies, LAND_PAD_WINDOW,
      LAND_PAD_WIDTH, CHUNK_GRANULARITY, List.find?, List.getD, List.range_succ]
  · simp [specWindowAverage, LAND_PAD_WINDOW, LAND_PAD_WIDTH,
      CHUNK_GRANULARITY, List.getD, List.range_succ]
    norm_num

/-- **C7 (amended).** When a qualifying pad window is selected during
chunk generation, every height sample inside that window is set to the
average height of the window's two endpoint samples, and the pad is
recorded at the window's midpoint (the mean of the two endpoints' world-x
offsets). -/
theorem pad_flatten_endpoint_average (hs : List ℚ) (i : ℕ)
    (h : padScan hs = some i) :
    (∀ j, i ≤ j → j ≤ i + LAND_PAD_WINDOW →
        (placeLandPad hs true).1.getD j 0 =
          (hs.getD i 0 + hs.getD (i + LAND_PAD_WINDOW) 0) / 2) ∧
      (placeLandPad hs true).2 =
        some ((((i * CHUNK_GRANULARITY : ℕ) : ℚ) +
            (((i + LAND_PAD_WINDOW) * CHUNK_GRANULARITY : ℕ) : ℚ)) / 2,
          (hs.getD i 0 + hs.getD (i + LAND_PAD_WINDOW) 0) / 2) := by
  have hbound : i + LAND_PAD_WINDOW < hs.length := by
    unfold padScan at h
    obtain ⟨h1, h2, _, _⟩ := find?_range'_spec h
    have hw : LAND_PAD_WINDOW = 12 := rfl
    rw [hw]
    rw [hw] at h2
    omega
  constructor
  · intro j hij hji
    simp only [placeLandPad, h, if_true]
    rw [rangeMap_getD _ _ j (by omega)]
    rw [if_pos ⟨hij, hji⟩]
  · simp only [placeLandPad, h, if_true]
    refine congrArg some (Prod.ext ?_ rfl)
    push_cast
    ring

/-- Witness for C7 (amended): for the spiked chunk, every sample of window
`[1, 13]` is set to the endpoint average `0` and the pad is recorded at
the window's x-midpoint. -/
theorem pad_flatten_endpoint_average_witness :
    (∀ j, 1 ≤ j → j ≤ 1 + LAND_PAD_WINDOW →
        (placeLandPad [0, 0, 0, 0, 0, 0, 100, 0, 0, 0, 0, 0, 0, (0 : ℚ)] true).1.getD j 0 =
          ([0, 0, 0, 0, 0, 0, 100, 0, 0, 0, 0, 0, 0, (0 : ℚ)].getD 1 0 +
            [0, 0, 0, 0, 0, 0, 100, 0, 0, 0, 0, 0, 0, (0 : ℚ)].getD (1 + LAND_PAD_WINDOW) 0) / 2) ∧
      (placeLandPad [0, 0, 0, 0, 0, 0, 100, 0, 0, 0, 0, 0, 0, (0 : ℚ)] true).2 =
        some ((((1 * CHUNK_GRANULARITY : ℕ) : ℚ) +
            (((1 + LAND_PAD_WINDOW) * CHUNK_GRANULARITY : ℕ) : ℚ)) / 2,
          ([0, 0, 0, 0, 0, 0, 100, 0, 0, 0, 0, 0, 0, (0 : ℚ)].getD 1 0 +
            [0, 0, 0, 0, 0, 0, 100, 0, 0, 0, 0, 0, 0, (0 : ℚ)].getD (1 + LAND_PAD_WINDOW) 0) / 2) :=
  pad_flatten_endpoint_average _ 1
    (by simp [padScan, padWindowQualifies, LAND_PAD_WINDOW, LAND_PAD_WIDTH,
      CHUNK_GRANULARITY, List.find?, List.getD])

/-- **C8 (counterexample).** The needed window is not symmetric around the
current chunk: at current origin `0` it holds six origins strictly left of
`0` but only five strictly right of it (the Rust range's upper bound is
exclusive), refuting "the same number of chunks on each side". -/
theorem needed_window_not_symmetric :
    ¬ (((neededChunkOrigins 0).filter (fun c => decide (c < 0))).length =
        ((neededChunkOrigins 0).filter (fun c => decide (0 < c))).length) := by
  rw [neededChunkOrigins_eq]
  decide

/-- **C8 (amended).** For every `playerX`, the needed chunk-origin set is
the window of `ceil(viewportWidth/chunkWidth) + 2 + 2·buffer = 12`
consecutive chunk origins from `currentOrigin - 6·chunkWidth` through
`currentOrigin + 5·chunkWidth`: the buffer-expanded window extends one
chunk further to the left of the current chunk than to the right, because
the source's range is exclusive on the right. -/
theorem needed_window_shape (playerX : ℚ) :
    neededChunkOrigins (currentChunkOrigin playerX) =
      [currentChunkOrigin playerX - 2400, currentChunkOrigin playerX - 2000,
       currentChunkOrigin playerX - 1600, currentChunkOrigin playerX - 1200,
       currentChunkOrigin playerX - 800, currentChunkOrigin playerX - 400,
       currentChunkOrigin playerX, currentChunkOrigin playerX + 400,
       currentChunkOrigin playerX + 800, currentChunkOrigin playerX + 1200,
       currentChunkOrigin playerX + 1600, currentChunkOrigin playerX + 2000] :=
  neededChunkOrigins_eq (currentChunkOrigin playerX)

/-- A `CollisionEnd` event never sets a grounded flag to `true`. -/
lemma processCollisionEnd_preserves_false (tracked ground : List ℕ)
    (g : ℕ → Bool) (ev : CollisionEvent) (e : ℕ) (he : g e = false) :
    processCollisionEnd tracked ground g ev e = false := by
  simp only [processCollisionEnd]
  by_cases h1 : tracked.contains ev.collider1 = true
  · rw [if_pos h1]
    by_cases h2 : ground.contains ev.collider2 = true
    · rw [if_pos h2]
      by_cases hc : e = ev.collider1
      · simp [hc]
      · simp [hc, he]
    · rw [if_neg h2]; exact he
  · rw [if_neg h1]
    by_cases h2 : tracked.contains ev.collider2 = true
    · rw [if_pos h2]
      by_cases h3 : ground.contains ev.collider1 = true
      · rw [if_pos h3]
        by_cases hc : e = ev.collider2
        · simp [hc]
        · simp [hc, he]
      · rw [if_neg h3]; exact he
    · rw [if_neg h2]; exact he

lemma foldl_end_preserves_false (tracked ground : List ℕ)
    (evs : List CollisionEvent) (g : ℕ → Bool) (e : ℕ) (he : g e = false) :
    evs.foldl (processCollisionEnd tracked ground) g e = false := by
  induction evs generalizing g with
  | nil => exact he
  | cons ev evs ih =>
    exact ih _ (processCollisionEnd_preserves_false tracked ground g ev e he)

/-- A matching player–terrain `CollisionEnd` event clears the player's
grounded flag (the terrain body itself carries no `Grounded` component). -/
lemma processCollisionEnd_matching (tracked ground : List ℕ)
    (g : ℕ → Bool) (player terrain : ℕ)
    (hp : tracked.contains player = true)
    (ht : ground.contains terrain = true)
    (htn : tracked.contains terrain = false)
    (ev : CollisionEvent)
    (hev : ev = ⟨player, terrain⟩ ∨ ev = ⟨terrain, player⟩) :
    processCollisionEnd tracked ground g ev player = false := by
  rcases hev with hev | hev <;> subst hev <;> unfold processCollisionEnd <;> dsimp only
  · rw [if_pos hp, if_pos ht]
    simp
  · rw [if_neg (by rw [htn]; exact Bool.false_ne_true), if_pos hp, if_pos ht]
    simp

/-- **C9.** The ground-detection pass processes all collision-start events
before any collision-end event; consequently, whenever both a start and an
end event for a player–terrain contact occur in the same tick's batches,
the player's grounded flag is `false` after the pass, regardless of the
positions of the two events in their streams and of any other events. -/
theorem same_tick_start_and_end_leaves_ungrounded
    (tracked ground : List ℕ) (player terrain : ℕ)
    (starts ends : List CollisionEvent) (g : ℕ → Bool)
    (hp : tracked.contains player = true)
    (ht : ground.contains terrain = true)
    (htn : tracked.contains terrain = false)
    (_hstart : (⟨player, terrain⟩ : CollisionEvent) ∈ starts ∨
      (⟨terrain, player⟩ : CollisionEvent) ∈ starts)
    (hend : (⟨player, terrain⟩ : CollisionEvent) ∈ ends ∨
      (⟨terrain, player⟩ : CollisionEvent) ∈ ends) :
    ground_detection_system tracked ground starts ends g player = false := by
  unfold ground_detection_system
  have hev : ∃ ev, ev ∈ ends ∧
      (ev = (⟨player, terrain⟩ : CollisionEvent) ∨
        ev = (⟨terrain, player⟩ : CollisionEvent)) := by
    rcases hend with hmem | hmem
    · exact ⟨_, hmem, Or.inl rfl⟩
    · exact ⟨_, hmem, Or.inr rfl⟩
  obtain ⟨ev, hmem, hform⟩ := hev
  obtain ⟨l₁, l₂, hsplit⟩ := List.append_of_mem hmem
  rw [hsplit, List.foldl_append, List.foldl_cons]
  exact foldl_end_preserves_false tracked ground l₂ _ player
    (processCollisionEnd_matching tracked ground _ player terrain hp ht htn ev hform)

/-- Witness for C9: player `1`, terrain `2`; a start and an end event for
their contact in the same tick leave the player ungrounded even though the
start event set the flag. -/
theorem same_tick_start_and_end_leaves_ungrounded_witness :
    ground_detection_system [1] [2] [⟨1, 2⟩] [⟨2, 1⟩] (fun _ => false) 1 = false :=
  same_tick_start_and_end_leaves_ungrounded [1] [2] 1 2 [⟨1, 2⟩] [⟨2, 1⟩]
    (fun _ => false) (by decide) (by decide) (by decide)
    (Or.inl (List.mem_singleton.mpr rfl)) (Or.inr (List.mem_singleton.mpr rfl))

/-- The stop rule's disjunction is the exact complement of the start
rule's conjunction. -/
lemma resetConditions_eq (o : PlayerObs) :
    resetConditions o = !startConditions o := by
  rcases o with ⟨a, b, c, d⟩
  cases a <;> cases b <;> cases c <;> cases d <;> rfl

lemma runWinTimer_cons (tk : WinTick) (tks : List WinTick) (t : WinTimer) :
    runWinTimer (tk :: tks) t =
      ((runWinTimer tks (winTimerStep tk t).1).1,
        (winTimerStep tk t).2 || (runWinTimer tks (winTimerStep tk t).1).2) := rfl

lemma spanDurationMs_cons (tk : WinTick) (tks : List WinTick) :
    spanDurationMs (tk :: tks) = tk.deltaMs + spanDurationMs tks := by
  simp [spanDurationMs]

/-- One win-timer tick, evaluated by cases on the landing conditions and
the paused flag. -/
lemma winTimerStep_eq (tk : WinTick) (t : WinTimer) :
    winTimerStep tk t =
      if startConditions tk.obs = true then
        if t.paused then
          (⟨false, min tk.deltaMs WIN_TIMER_DURATION_MS⟩,
            decide (0 < WIN_TIMER_DURATION_MS) &&
              decide (WIN_TIMER_DURATION_MS ≤ tk.deltaMs))
        else
          (⟨false, min (t.elapsedMs + tk.deltaMs) WIN_TIMER_DURATION_MS⟩,
            decide (t.elapsedMs < WIN_TIMER_DURATION_MS) &&
              decide (WIN_TIMER_DURATION_MS ≤ t.elapsedMs + tk.deltaMs))
      else (⟨true, t.elapsedMs⟩, false) := by
  rcases t with ⟨p, e⟩
  cases hc : startConditions tk.obs <;> cases p <;>
    simp [winTimerStep, start_win_timer_system, reset_win_timer_system,
      tick_win_timer_system, resetConditions_eq, hc]

/-- If Win fired somewhere along a run, then either an all-conditions
prefix continues a streak already counted in the starting state, or a
fully contained all-conditions span accumulated the whole duration. -/
lemma runWinTimer_fired_cases (tks : List WinTick) (t : WinTimer)
    (h : (runWinTimer tks t).2 = true) :
    (∃ p rest, tks = p ++ rest ∧ (∀ x ∈ p, startConditions x.obs = true) ∧
        t.paused = false ∧
        WIN_TIMER_DURATION_MS ≤ t.elapsedMs + spanDurationMs p ∧
        (runWinTimer p t).2 = true) ∨
    (∃ l₁ span l₂, tks = l₁ ++ span ++ l₂ ∧
        (∀ x ∈ span, startConditions x.obs = true) ∧
        WIN_TIMER_DURATION_MS ≤ spanDurationMs span ∧
        (runWinTimer (l₁ ++ span) t).2 = true) := by
  induction tks generalizing t with
  | nil => simp [runWinTimer] at h
  | cons tk tks ih =>
    rw [runWinTimer_cons] at h
    simp only [Bool.or_eq_true] at h
    by_cases hc : startConditions tk.obs = true
    · by_cases hp : t.paused = true
      · have hstep : winTimerStep tk t =
            (⟨false, min tk.deltaMs WIN_TIMER_DURATION_MS⟩,
              decide (0 < WIN_TIMER_DURATION_MS) &&
                decide (WIN_TIMER_DURATION_MS ≤ tk.deltaMs)) := by
          rw [winTimerStep_eq, if_pos hc, if_pos hp]
        rcases h with hf | hr
        · rw [hstep] at hf
          simp only [Bool.and_eq_true, decide_eq_true_eq] at hf
          refine Or.inr ⟨[], [tk], tks, rfl, by simpa using hc, ?_, ?_⟩
          · simp only [spanDurationMs_cons]
            simp [spanDurationMs]
            omega
          · simp only [List.nil_append, runWinTimer_cons, hstep]
            simp
            omega
        · rcases ih _ hr with ⟨p, rest, hsplit, hall, _, hd, hfired⟩ |
            ⟨l₁, span, l₂, hsplit, hall, hd, hfired⟩
          · rw [hstep] at hd hfired
            refine Or.inr ⟨[], tk :: p, rest, by rw [hsplit]; rfl, ?_, ?_, ?_⟩
            · intro x hx
              rcases List.mem_cons.mp hx with hx | hx
              · rw [hx]; exact hc
              · exact hall x hx
            · rw [spanDurationMs_cons]
              simp only at hd
              omega
            · simp only [List.nil_append, runWinTimer_cons, hstep]
              rw [hfired]
              simp
          · rw [hstep] at hfired
            refine Or.inr ⟨tk :: l₁, span, l₂, by rw [hsplit]; rfl, hall, hd, ?_⟩
            simp only [List.cons_append, runWinTimer_cons, hstep]
            rw [hfired]
            simp
      · have hp' : t.paused = false := by
          rw [← Bool.not_eq_true]; exact hp
        have hstep : winTimerStep tk t =
            (⟨false, min (t.elapsedMs + tk.deltaMs) WIN_TIMER_DURATION_MS⟩,
              decide (t.elapsedMs < WIN_TIMER_DURATION_MS) &&
                decide (WIN_TIMER_DURATION_MS ≤ t.elapsedMs + tk.deltaMs)) := by
          rw [winTimerStep_eq, if_pos hc, if_neg hp]
        rcases h with hf | hr
        · refine Or.inl ⟨[tk], tks, rfl, by simpa using hc, hp', ?_, ?_⟩
          · rw [hstep] at hf
            simp only [Bool.and_eq_true, decide_eq_true_eq] at hf
            rw [spanDurationMs_cons]
            simp [spanDurationMs]
            omega
          · simp only [runWinTimer_cons, hf]
            simp
        · rcases ih _ hr with ⟨p, rest, hsplit, hall, _, hd, hfired⟩ |
            ⟨l₁, span, l₂, hsplit, hall, hd, hfired⟩
          · rw [hstep] at hd hfired
            refine Or.inl ⟨tk :: p, rest, by rw [hsplit]; rfl, ?_, hp', ?_, ?_⟩
            · intro x hx
              rcases List.mem_cons.mp hx with hx | hx
              · rw [hx]; exact hc
              · exact hall x hx
            · rw [spanDurationMs_cons]
              simp only at hd
              omega
            · simp only [runWinTimer_cons, hstep]
              rw [hfired]
              simp
          · rw [hstep] at hfired
            refine Or.inr ⟨tk :: l₁, span, l₂, by rw [hsplit]; rfl, hall, hd, ?_⟩
            simp only [List.cons_append, runWinTimer_cons, hstep]
            rw [hfired]
            simp
    · have hstep : winTimerStep tk t = (⟨true, t.elapsedMs⟩, false) := by
        rw [winTimerStep_eq, if_neg hc]
      rcases h with hf | hr
      · rw [hstep] at hf
        exact absurd hf (by simp)
      · rcases ih _ hr with ⟨p, rest, hsplit, hall, hpaused, hd, hfired⟩ |
          ⟨l₁, span, l₂, hsplit, hall, hd, hfired⟩
        · rw [hstep] at hpaused
          exact absurd hpaused (by simp)
        · rw [hstep] at hfired
          refine Or.inr ⟨tk :: l₁, span, l₂, by rw [hsplit]; rfl, hall, hd, ?_⟩
          simp only [List.cons_append, runWinTimer_cons, hstep]
          rw [hfired]
          simp

/-- **C1.** Starting from the level-start timer, whenever the win-timer
pipeline fires Win over a sequence of ticks, the sequence contains an
unbroken span of ticks on each of which all four landing conditions hold,
whose accumulated tick durations reach the win duration, and Win has
fired by the end of that span — so a tick violating any condition pauses
the timer, the next start resets elapsed time to zero, and a momentary
violation prevents Win from firing at the original deadline. -/
theorem win_fires_only_after_unbroken_span (ticks : List WinTick)
    (h : (runWinTimer ticks initWinTimer).2 = true) :
    ∃ l₁ span l₂, ticks = l₁ ++ span ++ l₂ ∧
      (∀ x ∈ span, startConditions x.obs = true) ∧
      WIN_TIMER_DURATION_MS ≤ spanDurationMs span ∧
      (runWinTimer (l₁ ++ span) initWinTimer).2 = true := by
  rcases runWinTimer_fired_cases ticks initWinTimer h with
    ⟨p, rest, hsplit, hall, _, hd, hfired⟩ | hB
  · refine ⟨[], p, rest, by simpa using hsplit, hall, ?_, by simpa using hfired⟩
    simpa [initWinTimer] using hd
  · exact hB

/-- Witness for C1: a single 3000 ms tick with all four landing conditions
holding fires Win, and the whole list is the required span. -/
theorem win_fires_only_after_unbroken_span_witness :
    ∃ l₁ span l₂,
      [(⟨⟨true, true, true, true⟩, 3000⟩ : WinTick)] = l₁ ++ span ++ l₂ ∧
      (∀ x ∈ span, startConditions x.obs = true) ∧
      WIN_TIMER_DURATION_MS ≤ spanDurationMs span ∧
      (runWinTimer (l₁ ++ span) initWinTimer).2 = true :=
  win_fires_only_after_unbroken_span
    [(⟨⟨true, true, true, true⟩, 3000⟩ : WinTick)] (by decide)

end MoonLandr
